import Mathlib

/-!
Verification development for the damm-v2 fee_router program.

This file shallowly embeds the distribution engine of
programs/fee_router/src (state/progress.rs, state/policy.rs, utils/math.rs,
instructions/crank_distribution.rs, instructions/setup_policy.rs,
integrations/cp_amm.rs) into Lean and proves properties about it.

Modelling conventions:
- Machine integers (u16/u32/u64) become Nat.  The program is compiled with
  Rust overflow checks enabled (the Anchor workspace default), so plain
  arithmetic that overflows panics and aborts the transaction: we model such
  additions with checked operations that return an error.  Explicit
  saturating operations saturate at the type bound (Rust's u64 saturating_sub
  on Nat is exactly Nat subtraction).  Explicit numeric casts truncate
  (modelled with a modulus).  u128 intermediates never overflow for u64
  inputs, so the source's checked u128 multiplications are plain Nat
  multiplications here.
- Fallible code returns Except HErr.  A failed Solana instruction rolls back
  every account mutation and every token transfer of the call, so an
  Except.error models "abort with no persisted mutation and no transfer":
  success returns the new account state plus the list of token transfers the
  call executed, failure returns only the error.
- Pubkey-valued fields, PDA bumps, event emission, and account plumbing are
  not part of any claim and are omitted.  The Streamflow locked-balance
  oracle is modelled by passing the list of locked amounts the oracle
  returns for the streams in remaining_accounts (one entry per
  [stream, investor_ata] pair, in order); the fee-claim CPI is modelled by
  passing the claimed quote amount for the page that claims.
-/

namespace FeeRouter

/-- u64 overflow bound. -/
def U64_SIZE : Nat := 2 ^ 64

/-- u32 overflow bound. -/
def U32_SIZE : Nat := 2 ^ 32

/-- constants.rs: MAX_PAGE_SIZE. -/
def MAX_PAGE_SIZE : Nat := 50

/-- constants.rs: SECONDS_PER_DAY (i64). -/
def SECONDS_PER_DAY : Int := 86400

/-- constants.rs: BASIS_POINTS_DIVISOR. -/
def BASIS_POINTS_DIVISOR : Nat := 10000

/-- constants.rs: MIN_PAYOUT_THRESHOLD. -/
def MIN_PAYOUT_THRESHOLD : Nat := 1000

/-- error.rs: HonouraryError (the variants the embedded code can raise). -/
inductive HErr where
  | BaseFeesDetected
  | CrankWindowNotReached
  | InvalidPagination
  | InvalidPaginationSequence
  | InvalidPoolConfiguration
  | InvestorAlreadyPaid
  | MathOverflow
deriving Repr, DecidableEq

/-- u64 checked_add (also the meaning of plain u64 addition under Rust
overflow checks: overflow aborts the call). -/
def checkedAdd64 (a b : Nat) : Except HErr Nat :=
  if a + b < U64_SIZE then .ok (a + b) else .error .MathOverflow

/-- u32 checked_add / plain u32 addition under overflow checks. -/
def checkedAdd32 (a b : Nat) : Except HErr Nat :=
  if a + b < U32_SIZE then .ok (a + b) else .error .MathOverflow

/-- u64 saturating_add. -/
def satAdd64 (a b : Nat) : Nat :=
  min (a + b) (U64_SIZE - 1)

/-- A left-to-right chain of u64 checked additions over a list (the
crank's first-page aggregation loop, and iter().sum() under overflow
checks).  Since Nat partial sums are monotone, the chain succeeds exactly
when the total fits in u64, and then returns the total. -/
def checkedSum64 (l : List Nat) : Except HErr Nat :=
  if l.sum < U64_SIZE then .ok l.sum else .error .MathOverflow

/-- state/policy.rs: Policy (crank-relevant fields; vault, creator_wallet,
bump and timestamps are pubkeys/metadata no claim mentions). -/
structure Policy where
  investor_fee_share_bps : Nat
  daily_cap_lamports : Option Nat
  min_payout_lamports : Nat
  y0_total_allocation : Nat
  total_investors : Nat
deriving Repr, DecidableEq

/-- state/policy.rs: PolicyParams (same field selection as Policy). -/
structure PolicyParams where
  investor_fee_share_bps : Nat
  daily_cap_lamports : Option Nat
  min_payout_lamports : Nat
  y0_total_allocation : Nat
  total_investors : Nat
deriving Repr, DecidableEq

/-- state/progress.rs: DistributionProgress (vault and bump omitted).
The 256-byte paid_investor_bitmap is modelled as a single Nat bitset:
bit i of the Nat is bit (i % 8) of byte (i / 8) of the array. -/
structure DistributionProgress where
  last_distribution_ts : Int
  current_day_distributed : Nat
  current_day_carry_over : Nat
  pagination_cursor : Nat
  day_completed : Bool
  current_day_total_claimed : Nat
  total_distributions : Nat
  total_investor_distributed : Nat
  total_creator_distributed : Nat
  current_day_total_locked_all : Nat
  persistent_carry_over : Nat
  paid_investor_bitmap : Nat
deriving Repr, DecidableEq

/-- The accounts a crank call mutates: the DistributionProgress account and
the total_fees_claimed counter of the InvestorFeePositionOwner account
(state/position_owner.rs). -/
structure ChainState where
  progress : DistributionProgress
  owner_total_fees_claimed : Nat
deriving Repr, DecidableEq

/-- A token transfer executed by the crank, tagged by which code path
produced it: the per-investor pro-rata payout loop, the carry-over (dust)
redistribution loop, or the closing creator payout.  The investor index is
the global index page_start + position-in-page, identifying the investor
ATA the tokens go to. -/
inductive Transfer where
  | payout (investor : Nat) (amount : Nat)
  | dust (investor : Nat) (amount : Nat)
  | creator (amount : Nat)
deriving Repr, DecidableEq

/-- state/progress.rs: DistributionProgress::can_distribute. -/
def can_distribute (p : DistributionProgress) (current_timestamp : Int) : Bool :=
  if p.day_completed then
    decide (p.last_distribution_ts + SECONDS_PER_DAY ≤ current_timestamp)
  else
    true

/-- state/progress.rs: DistributionProgress::start_new_day. -/
def start_new_day (p : DistributionProgress) (current_timestamp : Int)
    (total_claimed total_locked_all : Nat) : DistributionProgress :=
  { p with
    last_distribution_ts := current_timestamp
    current_day_distributed := 0
    current_day_carry_over := 0
    pagination_cursor := 0
    day_completed := false
    current_day_total_claimed := satAdd64 total_claimed p.persistent_carry_over
    current_day_total_locked_all := total_locked_all
    persistent_carry_over := 0
    paid_investor_bitmap := 0 }

/-- state/progress.rs: DistributionProgress::complete_day.  The two plain
u64 increments abort on overflow (overflow checks). -/
def complete_day (p : DistributionProgress) (creator_amount : Nat) :
    Except HErr DistributionProgress :=
  match checkedAdd64 p.total_distributions 1 with
  | .error e => .error e
  | .ok td =>
    match checkedAdd64 p.total_creator_distributed creator_amount with
    | .error e => .error e
    | .ok tc =>
      .ok { p with
        day_completed := true
        total_distributions := td
        total_creator_distributed := tc
        pagination_cursor := 0
        persistent_carry_over := p.current_day_carry_over
        paid_investor_bitmap := 0 }

/-- state/progress.rs: DistributionProgress::is_investor_paid.  byte_idx at
or beyond the 256-byte array reads as not paid. -/
def is_investor_paid (bitmap : Nat) (investor_index : Nat) : Bool :=
  if 256 ≤ investor_index / 8 then false
  else bitmap.testBit investor_index

/-- state/progress.rs: DistributionProgress::mark_investor_paid. -/
def mark_investor_paid (bitmap : Nat) (investor_index : Nat) : Except HErr Nat :=
  if 256 ≤ investor_index / 8 then .error .InvalidPagination
  else .ok (bitmap ||| (1 <<< investor_index))

/-- state/policy.rs: Policy::calculate_eligible_investor_share (the version
the crank calls; utils/math.rs calculate_eligible_investor_share_bps
computes the same value with checked u128 arithmetic that cannot fail for
u64 inputs). -/
def calculate_eligible_investor_share (pol : Policy) (locked_total : Nat) : Nat :=
  if pol.y0_total_allocation = 0 then 0
  else
    min pol.investor_fee_share_bps
      (min (locked_total * BASIS_POINTS_DIVISOR / pol.y0_total_allocation)
        BASIS_POINTS_DIVISOR)

/-- utils/math.rs: calculate_investor_fee_amount.  u128 product of u64 and
u16 never overflows; the try_into u64 fails when the quotient does not fit. -/
def calculate_investor_fee_amount (claimed_quote eligible_investor_share_bps : Nat) :
    Except HErr Nat :=
  if claimed_quote * eligible_investor_share_bps / BASIS_POINTS_DIVISOR < U64_SIZE then
    .ok (claimed_quote * eligible_investor_share_bps / BASIS_POINTS_DIVISOR)
  else .error .MathOverflow

/-- utils/math.rs: calculate_individual_payout. -/
def calculate_individual_payout (total_investor_fee individual_locked total_locked : Nat) :
    Except HErr Nat :=
  if total_locked = 0 then .ok 0
  else if total_investor_fee * individual_locked / total_locked < U64_SIZE then
    .ok (total_investor_fee * individual_locked / total_locked)
  else .error .MathOverflow

/-- utils/math.rs: apply_dust_threshold, returning (payout, dust). -/
def apply_dust_threshold (calculated_amount min_payout_threshold : Nat) : Nat × Nat :=
  if min_payout_threshold ≤ calculated_amount then (calculated_amount, 0)
  else (0, calculated_amount)

/-- utils/math.rs: calculate_creator_remainder (two saturating u64
subtractions; Nat subtraction is saturating). -/
def calculate_creator_remainder (total_claimed total_investor_distributed carry_over : Nat) :
    Nat :=
  total_claimed - total_investor_distributed - carry_over

/-- utils/math.rs: check_daily_cap. -/
def check_daily_cap (already_distributed proposed_distribution : Nat)
    (daily_cap : Option Nat) : Except HErr Nat :=
  match daily_cap with
  | some cap =>
    match checkedAdd64 already_distributed proposed_distribution with
    | .error e => .error e
    | .ok total_would_be =>
      if cap < total_would_be then .ok (cap - already_distributed)
      else .ok proposed_distribution
  | none => .ok proposed_distribution

/-- integrations/cp_amm.rs: claim_position_fees_quote_only, as a function of
the quote/base treasury balances read immediately before and after the
claim CPI.  The CPI itself only moves tokens into the two treasuries; its
effect is fully captured by the after-balances.  require_eq! aborts when
the base treasury balance changed; the returned amount is the checked
difference of the quote treasury balances. -/
def claim_position_fees_quote_only
    (treasury_before base_treasury_before treasury_after base_treasury_after : Nat) :
    Except HErr Nat :=
  if base_treasury_before ≠ base_treasury_after then .error .BaseFeesDetected
  else if treasury_after < treasury_before then .error .MathOverflow
  else .ok (treasury_after - treasury_before)

/-- crank_distribution.rs lines 166-167: is_first_page. -/
def is_first_page (p : DistributionProgress) (page_start : Nat) : Bool :=
  (page_start == 0 && p.day_completed) || (page_start == 0 && p.pagination_cursor == 0)

/-- crank_distribution.rs lines 170-174: previous_page_start. -/
def previous_page_start (p : DistributionProgress) (page_size : Nat) : Nat :=
  if page_size ≤ p.pagination_cursor then p.pagination_cursor - page_size else 0

/-- crank_distribution.rs lines 177-179: is_retry_previous_page. -/
def is_retry_previous_page (p : DistributionProgress) (page_start page_size : Nat) : Bool :=
  !p.day_completed && page_start == previous_page_start p page_size
    && decide (page_start < p.pagination_cursor)

/-- Accumulated result of the per-investor payout loop
(crank_distribution.rs lines 362-440): bitmap, progress.current_day_distributed,
page_distributed, page_dust, and the transfers executed so far. -/
structure LoopOut where
  bitmap : Nat
  distributed : Nat
  page_distributed : Nat
  page_dust : Nat
  transfers : List Transfer
deriving Repr, DecidableEq

/-- crank_distribution.rs lines 362-440: the per-investor payout loop.
g is the global index of the current investor (page_start + idx, with the
source's per-iteration u32 checked_add made explicit); locked is the tail
of individual_locked still to process. -/
def payoutLoop (pol : Policy) (total_investor_fee total_locked g : Nat)
    (locked : List Nat) (bm d pd dust : Nat) : Except HErr LoopOut :=
  match locked with
  | [] => .ok ⟨bm, d, pd, dust, []⟩
  | l :: rest =>
    if U32_SIZE ≤ g then .error .MathOverflow
    else if is_investor_paid bm g then .error .InvestorAlreadyPaid
    else
      match calculate_individual_payout total_investor_fee l total_locked with
      | .error e => .error e
      | .ok individual_payout =>
        let fp_dust := apply_dust_threshold individual_payout pol.min_payout_lamports
        if 0 < fp_dust.1 then
          match check_daily_cap d fp_dust.1 pol.daily_cap_lamports with
          | .error e => .error e
          | .ok allowed =>
            if 0 < allowed then
              match mark_investor_paid bm g with
              | .error e => .error e
              | .ok bm2 =>
                match payoutLoop pol total_investor_fee total_locked (g + 1) rest bm2
                    (satAdd64 d allowed) (satAdd64 pd allowed)
                    (satAdd64 dust (fp_dust.1 - allowed)) with
                | .error e => .error e
                | .ok out =>
                  .ok ⟨out.bitmap, out.distributed, out.page_distributed, out.page_dust,
                    Transfer.payout g allowed :: out.transfers⟩
            else
              payoutLoop pol total_investor_fee total_locked (g + 1) rest bm d pd
                (satAdd64 dust (fp_dust.1 - allowed))
        else
          payoutLoop pol total_investor_fee total_locked (g + 1) rest bm d pd
            (satAdd64 dust fp_dust.2)

/-- crank_distribution.rs lines 451-494: the carry-over (dust)
redistribution loop.  Returns (current_day_distributed, page_distributed,
transfers).  The u128 saturating mul/div never saturate for u64 inputs; the
final `as u64` cast truncates. -/
def dustLoop (carry_over_distributed page_locked g : Nat) (locked : List Nat)
    (d pd : Nat) : Nat × Nat × List Transfer :=
  match locked with
  | [] => (d, pd, [])
  | l :: rest =>
    if page_locked = 0 then (d, pd, [])
    else
      let share := carry_over_distributed * l / page_locked % U64_SIZE
      if 0 < share then
        let out := dustLoop carry_over_distributed page_locked (g + 1) rest
          (satAdd64 d share) (satAdd64 pd share)
        (out.1, out.2.1, Transfer.dust g share :: out.2.2)
      else
        dustLoop carry_over_distributed page_locked (g + 1) rest d pd

/-- crank_distribution.rs lines 206-279: on the first page of a new day,
aggregate total_locked_all_investors over every stream in
remaining_accounts with checked additions, claim fees (claimed_fee is the
amount the successful quote-only claim returned), reset progress through
start_new_day, and bump position_owner.total_fees_claimed; otherwise reuse
progress.current_day_total_claimed.  Returns the updated state and
claimed_quote. -/
def newDayUpdate (s : ChainState) (now : Int) (claimed_fee : Nat)
    (lockedAll : List Nat) (is_starting_new_day : Bool) :
    Except HErr (ChainState × Nat) :=
  if is_starting_new_day then
    match checkedSum64 lockedAll with
    | .error e => .error e
    | .ok total_locked_all_investors =>
      match checkedAdd64 s.owner_total_fees_claimed claimed_fee with
      | .error e => .error e
      | .ok oc =>
        .ok (⟨start_new_day s.progress now claimed_fee total_locked_all_investors, oc⟩,
          claimed_fee)
  else .ok (s, s.progress.current_day_total_claimed)

/-- crank_distribution.rs lines 340-356: pre-compute the carry-over to
redistribute.  Returns (page_locked, carry_over_distributed);
page_locked is only ever summed (and can only abort) when the threshold
test passes, and carry_over_distributed stays 0 when it does not. -/
def carryPre (min_payout carry_over_from_previous_pages total_locked : Nat)
    (individual : List Nat) : Except HErr (Nat × Nat) :=
  if min_payout ≤ carry_over_from_previous_pages then
    match checkedSum64 individual with
    | .error e => .error e
    | .ok page_locked =>
      if 0 < total_locked then
        .ok (page_locked,
          carry_over_from_previous_pages * page_locked / total_locked % U64_SIZE)
      else .ok (page_locked, 0)
  else .ok (0, 0)

/-- crank_distribution.rs lines 281-569: the per-page distribution work
after the claim/new-day step.  investors_to_process and individual =
lockedAll.take investors_to_process are passed in by crankBody. -/
def crankBody2 (pol : Policy) (s1 : ChainState) (page_start page_size : Nat)
    (claimed_quote investors_to_process : Nat) (individual : List Nat) :
    Except HErr (ChainState × List Transfer) :=
  match checkedAdd32 page_start (investors_to_process % U32_SIZE) with
    | .error e => .error e
    | .ok expected_end =>
      let is_final_page : Bool :=
        decide (investors_to_process < page_size) ||
          decide (pol.total_investors ≤ expected_end)
      let total_locked := s1.progress.current_day_total_locked_all
      let bps := calculate_eligible_investor_share pol total_locked
      match calculate_investor_fee_amount claimed_quote bps with
      | .error e => .error e
      | .ok total_investor_fee =>
        let carry_prev := s1.progress.current_day_carry_over
        match carryPre pol.min_payout_lamports carry_prev total_locked individual with
        | .error e => .error e
        | .ok (page_locked, carry_dist) =>
          match payoutLoop pol total_investor_fee total_locked page_start individual
              s1.progress.paid_investor_bitmap s1.progress.current_day_distributed 0 0 with
          | .error e => .error e
          | .ok lo =>
            let fin : Nat × Nat × Nat × List Transfer :=
              if 0 < carry_dist then
                let dl := dustLoop carry_dist page_locked page_start individual
                  lo.distributed lo.page_distributed
                (dl.1, dl.2.1, satAdd64 lo.page_dust (carry_prev - carry_dist), dl.2.2)
              else
                (lo.distributed, lo.page_distributed, satAdd64 lo.page_dust carry_prev, [])
            match checkedAdd32 page_start page_size with
            | .error e => .error e
            | .ok cursor2 =>
              match checkedAdd64 s1.progress.total_investor_distributed fin.2.1 with
              | .error e => .error e
              | .ok tid =>
                let p2 := { s1.progress with
                  current_day_distributed := fin.1
                  current_day_carry_over := fin.2.2.1
                  pagination_cursor := cursor2
                  total_investor_distributed := tid
                  paid_investor_bitmap := lo.bitmap }
                if is_final_page then
                  let remainder :=
                    calculate_creator_remainder claimed_quote fin.1 fin.2.2.1
                  match complete_day p2 remainder with
                  | .error e => .error e
                  | .ok p3 =>
                    .ok (⟨p3, s1.owner_total_fees_claimed⟩,
                      lo.transfers ++ fin.2.2.2 ++
                        (if 0 < remainder then [Transfer.creator remainder] else []))
                else
                  .ok (⟨p2, s1.owner_total_fees_claimed⟩, lo.transfers ++ fin.2.2.2)

/-- crank_distribution.rs lines 204-569: everything after the pagination
guard.  is_starting_new_day = is_first_page && day_completed (saved before
progress is modified); on a new day only the first page_size of the
supplied investors are paid, otherwise the whole supplied page. -/
def crankBody (pol : Policy) (s : ChainState) (page_start page_size : Nat) (now : Int)
    (lockedAll : List Nat) (claimed_fee : Nat) (is_starting_new_day : Bool) :
    Except HErr (ChainState × List Transfer) :=
  match newDayUpdate s now claimed_fee lockedAll is_starting_new_day with
  | .error e => .error e
  | .ok (s1, claimed_quote) =>
    let investors_to_process :=
      if is_starting_new_day then min page_size lockedAll.length else lockedAll.length
    crankBody2 pol s1 page_start page_size claimed_quote investors_to_process
      (lockedAll.take investors_to_process)

/-- crank_distribution.rs: handle_crank_distribution.  Arguments mirror the
instruction: page_start and page_size (u32), the clock timestamp, the
locked amounts the Streamflow oracle reports for the streams passed in
remaining_accounts (all investors on the first page of a new day, the
current page otherwise), and the quote amount a first-page fee claim
returns. -/
def handle_crank_distribution (pol : Policy) (s : ChainState)
    (page_start page_size : Nat) (now : Int) (lockedAll : List Nat)
    (claimed_fee : Nat) : Except HErr (ChainState × List Transfer) :=
  if ¬(0 < page_size ∧ page_size ≤ MAX_PAGE_SIZE) then .error .InvalidPagination
  else if ¬can_distribute s.progress now then .error .CrankWindowNotReached
  else if is_retry_previous_page s.progress page_start page_size then .ok (s, [])
  else if is_first_page s.progress page_start = false ∧
      page_start ≠ s.progress.pagination_cursor then
    .error .InvalidPaginationSequence
  else
    crankBody pol s page_start page_size now lockedAll claimed_fee
      (is_first_page s.progress page_start && s.progress.day_completed)

/-- instructions/setup_policy.rs: handle_setup_policy.  Returns the Policy
and the freshly initialized DistributionProgress. -/
def handle_setup_policy (params : PolicyParams) :
    Except HErr (Policy × DistributionProgress) :=
  if ¬(params.investor_fee_share_bps ≤ BASIS_POINTS_DIVISOR) then
    .error .InvalidPoolConfiguration
  else if ¬(0 < params.y0_total_allocation) then .error .InvalidPoolConfiguration
  else if ¬(MIN_PAYOUT_THRESHOLD ≤ params.min_payout_lamports) then
    .error .InvalidPoolConfiguration
  else if ¬(0 < params.total_investors) then .error .InvalidPoolConfiguration
  else
    .ok (⟨params.investor_fee_share_bps, params.daily_cap_lamports,
        params.min_payout_lamports, params.y0_total_allocation, params.total_investors⟩,
      ⟨0, 0, 0, 0, true, 0, 0, 0, 0, 0, 0, 0⟩)

/-- The global investor indices targeted by regular pro-rata payout-loop
transfers, in order. -/
def payoutTargets (ts : List Transfer) : List Nat :=
  ts.filterMap fun t =>
    match t with
    | .payout g _ => some g
    | _ => none

/-- The transfers executed by the carry-over redistribution loop. -/
def dustTransfers (ts : List Transfer) : List Transfer :=
  ts.filter fun t =>
    match t with
    | .dust _ _ => true
    | _ => false

/-- Total amount transferred to investors (either loop). -/
def investorTransferTotal (ts : List Transfer) : Nat :=
  (ts.map fun t =>
    match t with
    | .payout _ a => a
    | .dust _ a => a
    | .creator _ => 0).sum

/-- Total amount transferred to the creator wallet. -/
def creatorTransferTotal (ts : List Transfer) : Nat :=
  (ts.map fun t =>
    match t with
    | .creator a => a
    | _ => 0).sum

/-- Modelled from the spec (claim C5 states this formula):
total_investor_pool = floor(current_day_total_claimed * eligible_bps / 10000). -/
def spec_total_investor_pool (current_day_total_claimed eligible_bps : Nat) : Nat :=
  current_day_total_claimed * eligible_bps / BASIS_POINTS_DIVISOR

/-- Modelled from the spec (claim C6 states this redistribution rule):
an investor's share of redistributed carry-over is the carry-over pro-rated
by the investor's share of this page's locked sum. -/
def spec_carry_share (carry_over locked_i page_locked : Nat) : Nat :=
  carry_over * locked_i / page_locked

/-- The direct carry-over split the code performs (claim C6 amended):
investor idx of the page receives floor(carry_over_distributed * locked_idx
/ page_locked) whenever that floor is positive, as an unconditional
transfer. -/
def dustShares (carry_over_distributed page_locked g : Nat) (locked : List Nat) :
    List Transfer :=
  match locked with
  | [] => []
  | l :: rest =>
    let a := carry_over_distributed * l / page_locked
    if 0 < a then
      Transfer.dust g a :: dustShares carry_over_distributed page_locked (g + 1) rest
    else dustShares carry_over_distributed page_locked (g + 1) rest


/-! ### Inversion lemmas for the checked primitives -/

/-- checkedAdd64 succeeds exactly on sums that fit in u64. -/
theorem checkedAdd64_ok (a b t : Nat) (h : checkedAdd64 a b = .ok t) :
    t = a + b ∧ a + b < U64_SIZE := by
  unfold checkedAdd64 at h
  split at h
  · injection h with h2
    exact ⟨h2.symm, by assumption⟩
  · simp at h

/-- checkedAdd32 succeeds exactly on sums that fit in u32. -/
theorem checkedAdd32_ok (a b t : Nat) (h : checkedAdd32 a b = .ok t) :
    t = a + b ∧ a + b < U32_SIZE := by
  unfold checkedAdd32 at h
  split at h
  · injection h with h2
    exact ⟨h2.symm, by assumption⟩
  · simp at h

/-- checkedSum64 succeeds exactly when the list total fits in u64. -/
theorem checkedSum64_ok (l : List Nat) (t : Nat) (h : checkedSum64 l = .ok t) :
    t = l.sum ∧ l.sum < U64_SIZE := by
  unfold checkedSum64 at h
  split at h
  · injection h with h2
    exact ⟨h2.symm, by assumption⟩
  · simp at h

/-- mark_investor_paid sets exactly one bit, for an in-range index. -/
theorem mark_investor_paid_ok (bm g bm2 : Nat)
    (h : mark_investor_paid bm g = .ok bm2) :
    bm2 = bm ||| (1 <<< g) ∧ g / 8 < 256 := by
  unfold mark_investor_paid at h
  split at h
  · simp at h
  · injection h with h2
    exact ⟨h2.symm, by omega⟩

/-- calculate_individual_payout inversion: the floor of the pro-rata
product, or zero when the denominator is zero. -/
theorem calculate_individual_payout_ok (fee l TL v : Nat)
    (h : calculate_individual_payout fee l TL = .ok v) :
    (TL = 0 ∧ v = 0) ∨ v = fee * l / TL := by
  unfold calculate_individual_payout at h
  split at h
  · injection h with h2
    exact .inl ⟨by assumption, h2.symm⟩
  · split at h
    · injection h with h2
      exact .inr h2.symm
    · simp at h

/-- calculate_investor_fee_amount inversion. -/
theorem calculate_investor_fee_amount_ok (cq bps v : Nat)
    (h : calculate_investor_fee_amount cq bps = .ok v) :
    v = cq * bps / BASIS_POINTS_DIVISOR := by
  unfold calculate_investor_fee_amount at h
  split at h
  · injection h with h2
    exact h2.symm
  · simp at h

/-! ### Helper lemmas about the bitmap and cap -/

/-- Marking one investor never clears another investor's paid bit. -/
theorem is_investor_paid_mark_mono (bm g bm2 x : Nat)
    (h : mark_investor_paid bm g = .ok bm2)
    (hx : is_investor_paid bm x = true) : is_investor_paid bm2 x = true := by
  obtain ⟨rfl, -⟩ := mark_investor_paid_ok bm g bm2 h
  unfold is_investor_paid at hx ⊢
  split at hx
  · exact absurd hx (by simp)
  · rename_i hlt
    rw [if_neg hlt]
    rw [Nat.testBit_lor, hx, Bool.true_or]

/-- Contrapositive form of the marking monotonicity. -/
theorem is_investor_paid_mark_mono_not (bm g bm2 x : Nat)
    (h : mark_investor_paid bm g = .ok bm2)
    (hx : is_investor_paid bm2 x = false) : is_investor_paid bm x = false := by
  cases hb : is_investor_paid bm x
  · rfl
  · rw [is_investor_paid_mark_mono bm g bm2 x h hb] at hx
    exact absurd hx (by simp)

/-- Unfolding equation for check_daily_cap with a configured cap. -/
theorem check_daily_cap_some (d fp c : Nat) :
    check_daily_cap d fp (some c) =
      match checkedAdd64 d fp with
      | .error e => .error e
      | .ok total_would_be =>
        if c < total_would_be then .ok (c - d) else .ok fp := rfl

/-- check_daily_cap with a configured cap keeps the running total at or
below the cap. -/
theorem check_daily_cap_le (d fp c allowed : Nat) (hd : d ≤ c) (hc : c < U64_SIZE)
    (h : check_daily_cap d fp (some c) = .ok allowed) : satAdd64 d allowed ≤ c := by
  rw [check_daily_cap_some] at h
  cases hadd : checkedAdd64 d fp with
  | error e => rw [hadd] at h; simp at h
  | ok tot =>
    rw [hadd] at h
    obtain ⟨htot, hlt⟩ := checkedAdd64_ok d fp tot hadd
    simp only [] at h
    split at h <;> injection h with h2 <;> subst h2 <;>
      unfold satAdd64 <;> unfold U64_SIZE at hlt hc <;> simp only [U64_SIZE] <;> omega

/-- With no configured cap, check_daily_cap passes the proposal through. -/
theorem check_daily_cap_none (d fp allowed : Nat)
    (h : check_daily_cap d fp none = .ok allowed) : allowed = fp := by
  replace h : (Except.ok fp : Except HErr Nat) = .ok allowed := h
  injection h with h2
  exact h2.symm


/-- Unfolding equation for carryPre. -/
theorem carryPre_eq (minp carry TL : Nat) (ind : List Nat) :
    carryPre minp carry TL ind =
      if minp ≤ carry then
        match checkedSum64 ind with
        | .error e => .error e
        | .ok page_locked =>
          if 0 < TL then
            .ok (page_locked, carry * page_locked / TL % U64_SIZE)
          else .ok (page_locked, 0)
      else .ok (0, 0) := rfl

/-- If the carry-over entering the page is zero or below the threshold,
carryPre reports nothing to redistribute. -/
theorem carryPre_zero (minp carry TL : Nat) (ind : List Nat) (pl cd : Nat)
    (h : carryPre minp carry TL ind = .ok (pl, cd))
    (hc : carry = 0 ∨ carry < minp) : cd = 0 := by
  rw [carryPre_eq] at h
  by_cases hmin : minp ≤ carry
  · rw [if_pos hmin] at h
    have hcz : carry = 0 := by omega
    subst hcz
    cases hsum : checkedSum64 ind with
    | error e => rw [hsum] at h; simp at h
    | ok pl2 =>
      rw [hsum] at h
      simp only [] at h
      split at h <;> injection h with h2 <;>
        simpa using (congrArg Prod.snd h2).symm
  · rw [if_neg hmin] at h
    injection h with h2
    simpa using (congrArg Prod.snd h2).symm

/-- When the threshold test passes, the page sum fits in u64 and the global
total is positive, carryPre returns the page-locked sum and the truncated
scaled carry-over. -/
theorem carryPre_values (minp carry TL : Nat) (ind : List Nat) (pl cd : Nat)
    (hmin : minp ≤ carry) (hsum : ind.sum < U64_SIZE) (hTL : 0 < TL)
    (h : carryPre minp carry TL ind = .ok (pl, cd)) :
    pl = ind.sum ∧ cd = carry * ind.sum / TL % U64_SIZE := by
  rw [carryPre_eq, if_pos hmin] at h
  have hok : checkedSum64 ind = .ok ind.sum := by
    unfold checkedSum64
    rw [if_pos hsum]
  rw [hok] at h
  simp only [if_pos hTL] at h
  injection h with h2
  exact ⟨(congrArg Prod.fst h2).symm, by simpa using (congrArg Prod.snd h2).symm⟩

/-- newDayUpdate with is_starting_new_day = false is the identity on state. -/
theorem newDayUpdate_not_new (s : ChainState) (now : Int) (cf : Nat)
    (la : List Nat) : newDayUpdate s now cf la false =
      .ok (s, s.progress.current_day_total_claimed) := rfl

/-- Inversion for newDayUpdate: either nothing happened, or the progress
counters were reset by start_new_day. -/
theorem newDayUpdate_inv (s : ChainState) (now : Int) (cf : Nat) (la : List Nat)
    (isNew : Bool) (s1 : ChainState) (cq : Nat)
    (h : newDayUpdate s now cf la isNew = .ok (s1, cq)) :
    (isNew = false ∧ s1 = s) ∨
      (isNew = true ∧ s1.progress.current_day_distributed = 0 ∧
        s1.progress.current_day_carry_over = 0 ∧
        s1.progress.paid_investor_bitmap = 0) := by
  cases isNew with
  | false =>
    rw [newDayUpdate_not_new] at h
    injection h with h2
    exact .inl ⟨rfl, (congrArg Prod.fst h2).symm⟩
  | true =>
    refine .inr ⟨rfl, ?_⟩
    replace h :
        (match checkedSum64 la with
          | .error e => (.error e : Except HErr (ChainState × Nat))
          | .ok total =>
            match checkedAdd64 s.owner_total_fees_claimed cf with
            | .error e => .error e
            | .ok oc =>
              .ok (⟨start_new_day s.progress now cf total, oc⟩, cf)) = .ok (s1, cq) := h
    cases hsum : checkedSum64 la with
    | error e => rw [hsum] at h; simp at h
    | ok total =>
      rw [hsum] at h
      simp only [] at h
      cases hadd : checkedAdd64 s.owner_total_fees_claimed cf with
      | error e => rw [hadd] at h; simp at h
      | ok oc =>
        rw [hadd] at h
        simp only [] at h
        injection h with h2
        have hs1 : s1 = ⟨start_new_day s.progress now cf total, oc⟩ :=
          (congrArg Prod.fst h2).symm
        subst hs1
        exact ⟨rfl, rfl, rfl⟩

/-! ### The per-investor payout loop -/

/-- Unfolding equation for payoutLoop on a non-empty page. -/
theorem payoutLoop_cons (pol : Policy) (fee TL g l : Nat) (rest : List Nat)
    (bm d pd dust : Nat) :
    payoutLoop pol fee TL g (l :: rest) bm d pd dust =
      if U32_SIZE ≤ g then .error .MathOverflow
      else if is_investor_paid bm g then .error .InvestorAlreadyPaid
      else
        match calculate_individual_payout fee l TL with
        | .error e => .error e
        | .ok individual_payout =>
          if 0 < (apply_dust_threshold individual_payout pol.min_payout_lamports).1 then
            match check_daily_cap d
                (apply_dust_threshold individual_payout pol.min_payout_lamports).1
                pol.daily_cap_lamports with
            | .error e => .error e
            | .ok allowed =>
              if 0 < allowed then
                match mark_investor_paid bm g with
                | .error e => .error e
                | .ok bm2 =>
                  match payoutLoop pol fee TL (g + 1) rest bm2
                      (satAdd64 d allowed) (satAdd64 pd allowed)
                      (satAdd64 dust
                        ((apply_dust_threshold individual_payout
                          pol.min_payout_lamports).1 - allowed)) with
                  | .error e => .error e
                  | .ok out =>
                    .ok ⟨out.bitmap, out.distributed, out.page_distributed, out.page_dust,
                      Transfer.payout g allowed :: out.transfers⟩
              else
                payoutLoop pol fee TL (g + 1) rest bm d pd
                  (satAdd64 dust
                    ((apply_dust_threshold individual_payout
                      pol.min_payout_lamports).1 - allowed))
          else
            payoutLoop pol fee TL (g + 1) rest bm d pd
              (satAdd64 dust
                (apply_dust_threshold individual_payout pol.min_payout_lamports).2) := rfl

/-- All the payout-loop facts the claims need, in one induction:
(1) every page position was unpaid in the incoming bitmap;
(2) regular payout transfers target page positions only;
(3) no investor index receives two regular payout transfers;
(4) every regular payout transfer targets a position unpaid at loop entry;
(5) with no daily cap, every regular payout transfer meets the threshold;
(6) the loop produces no dust-tagged transfers;
(7) with a cap, the running distributed total stays at or below the cap. -/
theorem payoutLoop_inv (pol : Policy) (fee TL : Nat) :
    ∀ (locked : List Nat) (g bm d pd dust : Nat) (out : LoopOut),
      payoutLoop pol fee TL g locked bm d pd dust = .ok out →
      (∀ i, i < locked.length → is_investor_paid bm (g + i) = false) ∧
      (∀ x ∈ payoutTargets out.transfers, g ≤ x ∧ x < g + locked.length) ∧
      (payoutTargets out.transfers).Nodup ∧
      (∀ x ∈ payoutTargets out.transfers, is_investor_paid bm x = false) ∧
      (∀ x a, Transfer.payout x a ∈ out.transfers →
        pol.daily_cap_lamports = none → pol.min_payout_lamports ≤ a) ∧
      dustTransfers out.transfers = [] ∧
      (∀ c, pol.daily_cap_lamports = some c → c < U64_SIZE → d ≤ c →
        out.distributed ≤ c) := by
  intro locked
  induction locked with
  | nil =>
    intro g bm d pd dust out h
    replace h : (Except.ok (⟨bm, d, pd, dust, []⟩ : LoopOut) : Except HErr LoopOut) =
      .ok out := h
    injection h with h2
    subst h2
    refine ⟨by intro i hi; simp at hi, ?_, ?_, ?_, ?_, ?_, ?_⟩ <;>
      simp [payoutTargets, dustTransfers]
  | cons l rest ih =>
    intro g bm d pd dust out h
    rw [payoutLoop_cons] at h
    by_cases h32 : U32_SIZE ≤ g
    · rw [if_pos h32] at h; simp at h
    rw [if_neg h32] at h
    by_cases hpaid : is_investor_paid bm g = true
    · rw [if_pos hpaid] at h; simp at h
    rw [if_neg hpaid] at h
    have hpaid0 : is_investor_paid bm g = false := by
      cases hb : is_investor_paid bm g
      · rfl
      · exact absurd hb hpaid
    cases hip : calculate_individual_payout fee l TL with
    | error e => rw [hip] at h; simp at h
    | ok ipay =>
      rw [hip] at h
      simp only [] at h
      by_cases hfp : 0 < (apply_dust_threshold ipay pol.min_payout_lamports).1
      · rw [if_pos hfp] at h
        cases hcap : check_daily_cap d
            (apply_dust_threshold ipay pol.min_payout_lamports).1
            pol.daily_cap_lamports with
        | error e => rw [hcap] at h; simp at h
        | ok allowed =>
          rw [hcap] at h
          simp only [] at h
          by_cases hal : 0 < allowed
          · rw [if_pos hal] at h
            cases hmark : mark_investor_paid bm g with
            | error e => rw [hmark] at h; simp at h
            | ok bm2 =>
              rw [hmark] at h
              simp only [] at h
              cases hrec : payoutLoop pol fee TL (g + 1) rest bm2
                  (satAdd64 d allowed) (satAdd64 pd allowed)
                  (satAdd64 dust
                    ((apply_dust_threshold ipay pol.min_payout_lamports).1 - allowed)) with
              | error e => rw [hrec] at h; simp at h
              | ok out2 =>
                rw [hrec] at h
                simp only [] at h
                injection h with h2
                subst h2
                obtain ⟨ih1, ih2, ih3, ih4, ih5, ih6, ih7⟩ :=
                  ih (g + 1) bm2 (satAdd64 d allowed) (satAdd64 pd allowed)
                    (satAdd64 dust
                      ((apply_dust_threshold ipay pol.min_payout_lamports).1 - allowed))
                    out2 hrec
                refine ⟨?_, ?_, ?_, ?_, ?_, ?_, ?_⟩
                · intro i hi
                  cases i with
                  | zero => simpa using hpaid0
                  | succ i' =>
                    have hb2 := ih1 i' (by simpa using Nat.lt_of_succ_lt_succ hi)
                    have harr : g + 1 + i' = g + (i' + 1) := by omega
                    rw [harr] at hb2
                    exact is_investor_paid_mark_mono_not bm g bm2 _ hmark hb2
                · intro x hx
                  simp only [payoutTargets, List.filterMap_cons] at hx
                  simp only [List.mem_cons] at hx
                  rcases hx with rfl | hx
                  · constructor <;> simp
                  · have := ih2 x hx
                    have hlen : (l :: rest).length = rest.length + 1 := rfl
                    constructor <;> omega
                · simp only [payoutTargets, List.filterMap_cons]
                  refine List.Nodup.cons ?_ ih3
                  intro hg
                  have := ih2 g hg
                  omega
                · intro x hx
                  simp only [payoutTargets, List.filterMap_cons, List.mem_cons] at hx
                  rcases hx with rfl | hx
                  · exact hpaid0
                  · exact is_investor_paid_mark_mono_not bm g bm2 x hmark (ih4 x hx)
                · intro x a hx hnone
                  simp only [List.mem_cons] at hx
                  rcases hx with hx | hx
                  · injection hx with hx1 hx2
                    subst hx2
                    rw [hnone] at hcap
                    have hfa := check_daily_cap_none d _ a hcap
                    subst hfa
                    unfold apply_dust_threshold at hfp ⊢
                    split at hfp
                    · rename_i hge
                      simp [apply_dust_threshold, hge]
                    · simp at hfp
                  · exact ih5 x a hx hnone
                · simp only [dustTransfers, List.filter_cons]
                  simpa [dustTransfers] using ih6
                · intro c hcc hcU hdc
                  rw [hcc] at hcap
                  exact ih7 c hcc hcU (check_daily_cap_le d _ c allowed hdc hcU hcap)
          · rw [if_neg hal] at h
            obtain ⟨ih1, ih2, ih3, ih4, ih5, ih6, ih7⟩ :=
              ih (g + 1) bm d pd
                (satAdd64 dust
                  ((apply_dust_threshold ipay pol.min_payout_lamports).1 - allowed))
                out h
            refine ⟨?_, ?_, ?_, ih4, ih5, ih6, ih7⟩
            · intro i hi
              cases i with
              | zero => simpa using hpaid0
              | succ i' =>
                have hb2 := ih1 i' (by simpa using Nat.lt_of_succ_lt_succ hi)
                have harr : g + 1 + i' = g + (i' + 1) := by omega
                rw [harr] at hb2
                exact hb2
            · intro x hx
              have := ih2 x hx
              have hlen : (l :: rest).length = rest.length + 1 := rfl
              constructor <;> omega
            · exact ih3
      · rw [if_neg hfp] at h
        obtain ⟨ih1, ih2, ih3, ih4, ih5, ih6, ih7⟩ :=
          ih (g + 1) bm d pd
            (satAdd64 dust (apply_dust_threshold ipay pol.min_payout_lamports).2)
            out h
        refine ⟨?_, ?_, ?_, ih4, ih5, ih6, ih7⟩
        · intro i hi
          cases i with
          | zero => simpa using hpaid0
          | succ i' =>
            have hb2 := ih1 i' (by simpa using Nat.lt_of_succ_lt_succ hi)
            have harr : g + 1 + i' = g + (i' + 1) := by omega
            rw [harr] at hb2
            exact hb2
        · intro x hx
          have := ih2 x hx
          have hlen : (l :: rest).length = rest.length + 1 := rfl
          constructor <;> omega
        · exact ih3

/-! ### The carry-over redistribution loop -/

/-- Unfolding equation for dustLoop on a non-empty page. -/
theorem dustLoop_cons (cd pl g l : Nat) (rest : List Nat) (d pd : Nat) :
    dustLoop cd pl g (l :: rest) d pd =
      if pl = 0 then (d, pd, [])
      else
        if 0 < cd * l / pl % U64_SIZE then
          ((dustLoop cd pl (g + 1) rest (satAdd64 d (cd * l / pl % U64_SIZE))
              (satAdd64 pd (cd * l / pl % U64_SIZE))).1,
            (dustLoop cd pl (g + 1) rest (satAdd64 d (cd * l / pl % U64_SIZE))
              (satAdd64 pd (cd * l / pl % U64_SIZE))).2.1,
            Transfer.dust g (cd * l / pl % U64_SIZE) ::
              (dustLoop cd pl (g + 1) rest (satAdd64 d (cd * l / pl % U64_SIZE))
                (satAdd64 pd (cd * l / pl % U64_SIZE))).2.2)
        else dustLoop cd pl (g + 1) rest d pd := rfl

/-- The carry-over redistribution loop never produces payout-tagged
transfers. -/
theorem dustLoop_payoutTargets (cd pl : Nat) :
    ∀ (locked : List Nat) (g d pd : Nat),
      payoutTargets (dustLoop cd pl g locked d pd).2.2 = [] := by
  intro locked
  induction locked with
  | nil => intro g d pd; rfl
  | cons l rest ih =>
    intro g d pd
    rw [dustLoop_cons]
    by_cases hpl : pl = 0
    · rw [if_pos hpl]; rfl
    rw [if_neg hpl]
    by_cases hsh : 0 < cd * l / pl % U64_SIZE
    · rw [if_pos hsh]
      simp only [payoutTargets, List.filterMap_cons]
      exact ih (g + 1) _ _
    · rw [if_neg hsh]
      exact ih (g + 1) d pd

/-- When no share can truncate (each raw share fits in u64) and the page
sum is positive, the dustLoop transfers are exactly the direct floor
split dustShares. -/
theorem dustLoop_eq_dustShares (cd pl : Nat) (hpl : pl ≠ 0) :
    ∀ (locked : List Nat) (g d pd : Nat),
      (∀ l ∈ locked, cd * l / pl < U64_SIZE) →
      (dustLoop cd pl g locked d pd).2.2 = dustShares cd pl g locked := by
  intro locked
  induction locked with
  | nil => intro g d pd hfit; rfl
  | cons l rest ih =>
    intro g d pd hfit
    have hl : cd * l / pl % U64_SIZE = cd * l / pl :=
      Nat.mod_eq_of_lt (hfit l (by simp))
    rw [dustLoop_cons, if_neg hpl]
    unfold dustShares
    rw [hl]
    by_cases hsh : 0 < cd * l / pl
    · rw [if_pos hsh, if_pos hsh]
      simp only []
      rw [ih (g + 1) _ _ (fun x hx => hfit x (by simp [hx]))]
    · rw [if_neg hsh, if_neg hsh]
      exact ih (g + 1) d pd (fun x hx => hfit x (by simp [hx]))

/-- dustShares with nothing to distribute is empty. -/
theorem dustShares_zero (pl : Nat) :
    ∀ (locked : List Nat) (g : Nat), dustShares 0 pl g locked = [] := by
  intro locked
  induction locked with
  | nil => intro g; rfl
  | cons l rest ih =>
    intro g
    unfold dustShares
    rw [if_neg (by simp)]
    exact ih (g + 1)

/-- Filtering dustShares for dust-tagged transfers is the identity. -/
theorem dustTransfers_dustShares (cd pl : Nat) :
    ∀ (locked : List Nat) (g : Nat),
      dustTransfers (dustShares cd pl g locked) = dustShares cd pl g locked := by
  intro locked
  induction locked with
  | nil => intro g; rfl
  | cons l rest ih =>
    intro g
    unfold dustShares
    by_cases hsh : 0 < cd * l / pl
    · rw [if_pos hsh]
      simp only [dustTransfers, List.filter_cons]
      simpa [dustTransfers] using ih (g + 1)
    · rw [if_neg hsh]
      exact ih (g + 1)

/-! ### Inversion of the crank body -/

/-- complete_day preserves the current-day counters and closes the day. -/
theorem complete_day_ok (p : DistributionProgress) (r : Nat)
    (p3 : DistributionProgress) (h : complete_day p r = .ok p3) :
    p3.current_day_distributed = p.current_day_distributed ∧
    p3.day_completed = true ∧ p3.pagination_cursor = 0 ∧
    p3.persistent_carry_over = p.current_day_carry_over ∧
    p3.current_day_total_claimed = p.current_day_total_claimed := by
  unfold complete_day at h
  cases h1 : checkedAdd64 p.total_distributions 1 with
  | error e => rw [h1] at h; simp at h
  | ok td =>
    rw [h1] at h
    simp only [] at h
    cases h2 : checkedAdd64 p.total_creator_distributed r with
    | error e => rw [h2] at h; simp at h
    | ok tc =>
      rw [h2] at h
      simp only [] at h
      injection h with h3
      subst h3
      exact ⟨rfl, rfl, rfl, rfl, rfl⟩

/-- Dissection of a successful crankBody2 run: the fee computation,
carry-over precomputation and payout loop all succeeded, the transfer list
splits into the payout-loop transfers, the dust-loop transfers and an
optional creator payout, and the recorded current_day_distributed is the
payout-loop total possibly bumped by the dust loop.  Also: on success the
day is either closed or the cursor advanced to page_start + page_size. -/
theorem crankBody2_ok_inv (pol : Policy) (s1 : ChainState) (ps sz : Nat)
    (cq itp : Nat) (individual : List Nat) (s' : ChainState) (ts : List Transfer)
    (h : crankBody2 pol s1 ps sz cq itp individual = .ok (s', ts)) :
    ∃ (fee pl cd : Nat) (lo : LoopOut) (ts2 ts3 : List Transfer),
      calculate_investor_fee_amount cq
        (calculate_eligible_investor_share pol
          s1.progress.current_day_total_locked_all) = .ok fee ∧
      carryPre pol.min_payout_lamports s1.progress.current_day_carry_over
        s1.progress.current_day_total_locked_all individual = .ok (pl, cd) ∧
      payoutLoop pol fee s1.progress.current_day_total_locked_all ps individual
        s1.progress.paid_investor_bitmap s1.progress.current_day_distributed 0 0 =
          .ok lo ∧
      ts = lo.transfers ++ ts2 ++ ts3 ∧
      (0 < cd →
        ts2 = (dustLoop cd pl ps individual lo.distributed lo.page_distributed).2.2) ∧
      (cd = 0 → ts2 = []) ∧
      (ts3 = [] ∨ ∃ r, ts3 = [Transfer.creator r]) ∧
      s'.progress.current_day_distributed =
        (if 0 < cd then
          (dustLoop cd pl ps individual lo.distributed lo.page_distributed).1
        else lo.distributed) ∧
      (s'.progress.day_completed = true ∨ s'.progress.pagination_cursor = ps + sz) := by
  simp only [crankBody2] at h
  split at h
  · simp at h
  rename_i pr2 expected_end hee
  split at h
  · simp at h
  rename_i pr3 fee hfee
  split at h
  · simp at h
  rename_i pr4 pl cd hcp
  split at h
  · simp at h
  rename_i pr5 lo hlo
  by_cases hcd : 0 < cd
  all_goals simp only [hcd, if_true, if_false, reduceIte] at h
  all_goals split at h
  all_goals try exact Except.noConfusion h
  all_goals rename_i pr6 cursor2 hc2
  all_goals split at h
  all_goals try exact Except.noConfusion h
  all_goals rename_i pr7 tid htid
  all_goals split at h
  -- case: 0 < cd, final page
  · rename_i hfin
    split at h
    · simp at h
    rename_i pr8 p3 hcdone
    injection h with h8
    simp only [Prod.mk.injEq] at h8
    obtain ⟨hse, hts⟩ := h8
    obtain ⟨hd3, hday3, -, -, -⟩ := complete_day_ok _ _ _ hcdone
    refine ⟨fee, pl, cd, lo,
      (dustLoop cd pl ps individual lo.distributed lo.page_distributed).2.2,
      (if 0 < calculate_creator_remainder cq
          (dustLoop cd pl ps individual lo.distributed lo.page_distributed).1
          (satAdd64 lo.page_dust (s1.progress.current_day_carry_over - cd)) then
        [Transfer.creator (calculate_creator_remainder cq
          (dustLoop cd pl ps individual lo.distributed lo.page_distributed).1
          (satAdd64 lo.page_dust (s1.progress.current_day_carry_over - cd)))]
      else []),
      hfee, hcp, hlo, hts.symm, fun _ => rfl,
      fun hcd0 => absurd hcd0 (by omega), ?_, ?_, ?_⟩
    · split
      · exact .inr ⟨_, rfl⟩
      · exact .inl rfl
    · rw [← hse, if_pos hcd]
      simpa using hd3
    · left
      rw [← hse]
      simpa using hday3
  -- case: 0 < cd, interior page
  · rename_i hfin
    injection h with h8
    simp only [Prod.mk.injEq] at h8
    obtain ⟨hse, hts⟩ := h8
    obtain ⟨hc2a, hc2b⟩ := checkedAdd32_ok ps sz cursor2 hc2
    refine ⟨fee, pl, cd, lo,
      (dustLoop cd pl ps individual lo.distributed lo.page_distributed).2.2, [],
      hfee, hcp, hlo, by rw [← hts]; simp, fun _ => rfl,
      fun hcd0 => absurd hcd0 (by omega), .inl rfl, ?_, ?_⟩
    · rw [← hse, if_pos hcd]
    · right
      rw [← hse]
      simpa using hc2a
  -- case: cd = 0, final page
  · rename_i hfin
    split at h
    · simp at h
    rename_i pr8 p3 hcdone
    injection h with h8
    simp only [Prod.mk.injEq] at h8
    obtain ⟨hse, hts⟩ := h8
    obtain ⟨hd3, hday3, -, -, -⟩ := complete_day_ok _ _ _ hcdone
    refine ⟨fee, pl, cd, lo, [],
      (if 0 < calculate_creator_remainder cq lo.distributed
          (satAdd64 lo.page_dust s1.progress.current_day_carry_over) then
        [Transfer.creator (calculate_creator_remainder cq lo.distributed
          (satAdd64 lo.page_dust s1.progress.current_day_carry_over))]
      else []),
      hfee, hcp, hlo, ?_, fun hpos => absurd hpos hcd,
      fun _ => rfl, ?_, ?_, ?_⟩
    · rw [← hts]
    · split
      · exact .inr ⟨_, rfl⟩
      · exact .inl rfl
    · rw [← hse, if_neg hcd]
      simpa using hd3
    · left
      rw [← hse]
      simpa using hday3
  -- case: cd = 0, interior page
  · rename_i hfin
    injection h with h8
    simp only [Prod.mk.injEq] at h8
    obtain ⟨hse, hts⟩ := h8
    obtain ⟨hc2a, hc2b⟩ := checkedAdd32_ok ps sz cursor2 hc2
    refine ⟨fee, pl, cd, lo, [], [], hfee, hcp, hlo, by rw [← hts]; simp,
      fun hpos => absurd hpos hcd, fun _ => rfl, .inl rfl, ?_, ?_⟩
    · rw [← hse, if_neg hcd]
    · right
      rw [← hse]
      simpa using hc2a

/-- Dissection of a successful crank call: either it was an idempotent
retry no-op, or every pagination guard passed and the body ran. -/
theorem handle_crank_ok_inv (pol : Policy) (s : ChainState) (ps sz : Nat)
    (now : Int) (la : List Nat) (cf : Nat) (s' : ChainState) (ts : List Transfer)
    (h : handle_crank_distribution pol s ps sz now la cf = .ok (s', ts)) :
    (is_retry_previous_page s.progress ps sz = true ∧ s' = s ∧ ts = []) ∨
    (is_retry_previous_page s.progress ps sz = false ∧
      (is_first_page s.progress ps = true ∨ ps = s.progress.pagination_cursor) ∧
      crankBody pol s ps sz now la cf
        (is_first_page s.progress ps && s.progress.day_completed) = .ok (s', ts) ∧
      0 < sz ∧ sz ≤ MAX_PAGE_SIZE ∧ can_distribute s.progress now = true) := by
  unfold handle_crank_distribution at h
  split at h
  · exact Except.noConfusion h
  rename_i hsz
  split at h
  · exact Except.noConfusion h
  rename_i hcan
  split at h
  · rename_i hretry
    injection h with h8
    simp only [Prod.mk.injEq] at h8
    exact .inl ⟨hretry, h8.1.symm, h8.2.symm⟩
  rename_i hretry
  split at h
  · exact Except.noConfusion h
  rename_i hseq
  have hsz2 : 0 < sz ∧ sz ≤ MAX_PAGE_SIZE := not_not.mp hsz
  refine .inr ⟨by simpa using hretry, ?_, h, hsz2.1, hsz2.2, by simpa using hcan⟩
  by_cases hfp : is_first_page s.progress ps = true
  · exact .inl hfp
  · right
    have hfp2 : is_first_page s.progress ps = false := by simpa using hfp
    by_contra hne
    exact hseq ⟨hfp2, hne⟩

/-- Dissection of a successful crank body: the new-day step succeeded and
the per-page work ran on the first page_size investors of a new day, or on
the whole supplied page otherwise. -/
theorem crankBody_ok_split (pol : Policy) (s : ChainState) (ps sz : Nat)
    (now : Int) (la : List Nat) (cf : Nat) (isNew : Bool) (s' : ChainState)
    (ts : List Transfer)
    (h : crankBody pol s ps sz now la cf isNew = .ok (s', ts)) :
    ∃ (s1 : ChainState) (cq : Nat),
      newDayUpdate s now cf la isNew = .ok (s1, cq) ∧
      crankBody2 pol s1 ps sz cq (if isNew then min sz la.length else la.length)
        (la.take (if isNew then min sz la.length else la.length)) = .ok (s', ts) := by
  unfold crankBody at h
  split at h
  · exact Except.noConfusion h
  rename_i pr s1 cq hnd
  exact ⟨s1, cq, hnd, h⟩

/-! ### Concrete scenarios used by the claim theorems

The initial ChainState below is the state handle_setup_policy creates.  The
intermediate states were obtained by running the model and are checked by
the definitional equalities inside the claim theorems, so each scenario is
a genuine reachable execution from setup. -/

/-- A one-investor policy: 100% investor share, no cap, threshold 1000,
y0 = 1000. -/
def polA : Policy := ⟨10000, none, 1000, 1000, 1⟩

/-- A three-investor policy: 100% investor share, no cap, threshold 1000,
y0 = 1000. -/
def polB : Policy := ⟨10000, none, 1000, 1000, 3⟩

/-- A two-investor policy with a daily cap of 1000: 100% investor share,
threshold 1000, y0 = 1000. -/
def polC : Policy := ⟨10000, some 1000, 1000, 1000, 2⟩

/-- The progress state handle_setup_policy initializes (paired with a zero
owner fee counter). -/
def state0 : ChainState := ⟨⟨0, 0, 0, 0, true, 0, 0, 0, 0, 0, 0, 0⟩, 0⟩

/-- polA, after cycle 1 (claim 500, fully below threshold, all dust):
persistent_carry_over = 500 rolls to the next cycle. -/
def stateA1 : ChainState := ⟨⟨86400, 0, 500, 0, true, 500, 1, 0, 0, 1000, 500, 0⟩, 500⟩

/-- polA, after cycle 2 (claim 1500 plus 500 rolled dust = 2000 pool):
only 1500 was paid out and the rolled 500 vanished. -/
def stateA2 : ChainState := ⟨⟨172800, 1500, 0, 0, true, 2000, 2, 1500, 0, 1000, 0, 0⟩, 2000⟩

/-- polB, after page 1 of a cycle (two sub-threshold payouts of 900 each
became 1800 of carry-over dust; cursor advanced to 2, day open). -/
def stateB1 : ChainState := ⟨⟨86400, 0, 1800, 2, false, 3000, 0, 0, 0, 1000, 0, 0⟩, 3000⟩

/-- polB, after page 2 closed the cycle: investor 2 received a regular
payout of 1200 and a carry-over redistribution transfer of 720. -/
def stateB2 : ChainState :=
  ⟨⟨86400, 1920, 1080, 0, true, 3000, 1, 1920, 0, 1000, 1080, 0⟩, 3000⟩

/-- polC, after page 1 of a cycle: investor 0's payout of 2500 was clamped
to the cap headroom 1000; 1500 became carry-over dust; bitmap bit 0 set. -/
def stateC1 : ChainState := ⟨⟨86400, 1000, 1500, 1, false, 5000, 0, 1000, 0, 1000, 0, 1⟩, 5000⟩

/-- polC, after page 2 closed the cycle: the carry-over redistribution
transferred 750 with the daily cap already exhausted, pushing
current_day_distributed to 1750 > 1000. -/
def stateC2 : ChainState :=
  ⟨⟨86400, 1750, 3250, 0, true, 5000, 1, 1750, 0, 1000, 3250, 0⟩, 5000⟩

/-! ### Claim theorems -/

/-- Claim C7: while a cycle is open (day_completed = false), resubmitting
the call whose page_start/page_size match the immediately preceding
accepted page — whose acceptance set pagination_cursor = page_start +
page_size — succeeds as a no-op: Ok with the same state, and no transfer
executed; in particular replaying page_start = 0 after the cursor advanced
to page_size leaves all state unchanged. -/
theorem claim7_idempotent_retry (pol : Policy) (s : ChainState)
    (page_start page_size : Nat) (now : Int) (lockedAll : List Nat)
    (claimed_fee : Nat) (hsz1 : 0 < page_size) (hsz2 : page_size ≤ MAX_PAGE_SIZE)
    (hday : s.progress.day_completed = false)
    (hcur : s.progress.pagination_cursor = page_start + page_size) :
    handle_crank_distribution pol s page_start page_size now lockedAll claimed_fee =
      .ok (s, []) := by
  unfold handle_crank_distribution
  rw [if_neg (not_not_intro ⟨hsz1, hsz2⟩),
    if_neg (not_not_intro (by simp [can_distribute, hday])),
    if_pos (show is_retry_previous_page s.progress page_start page_size = true by
      simp only [is_retry_previous_page, previous_page_start, hday, hcur]
      simp only [Bool.not_false, Bool.true_and]
      rw [if_pos (by omega)]
      simp
      omega)]

/-- Claim C7 witness: after the accepted first page of the polB scenario
(page_start 0, page_size 2, cursor advanced to 2, day open), replaying the
same call is a no-op success with the state unchanged. -/
theorem claim7_witness :
    handle_crank_distribution polB stateB1 0 2 86400 [300, 300, 400] 3000 =
      .ok (stateB1, []) :=
  claim7_idempotent_retry polB stateB1 0 2 86400 [300, 300, 400] 3000
    (by decide) (by decide) (by decide) (by decide)

/-- Claim C8: a crank call that is neither a legitimate first page of a
new cycle (page_start 0 with the previous day completed) nor the
idempotent retry of the immediately preceding accepted page is accepted
only when page_start equals pagination_cursor exactly; with any other
page_start the call is rejected (and a rejected Solana instruction leaves
Progress unchanged).  The hypothesis day_completed = false →
pagination_cursor ≠ 0 holds for every state reachable from setup, since
accepting a page sets the cursor to page_start + page_size ≥ 1 and closing
a day sets day_completed. -/
theorem claim8_pagination_guard (pol : Policy) (s : ChainState)
    (page_start page_size : Nat) (now : Int) (lockedAll : List Nat)
    (claimed_fee : Nat)
    (hreach : s.progress.day_completed = false → s.progress.pagination_cursor ≠ 0) :
    ((handle_crank_distribution pol s page_start page_size now lockedAll
        claimed_fee).isOk = true →
      (page_start = 0 ∧ s.progress.day_completed = true) ∨
        is_retry_previous_page s.progress page_start page_size = true ∨
        page_start = s.progress.pagination_cursor) ∧
    (¬(page_start = 0 ∧ s.progress.day_completed = true) →
      is_retry_previous_page s.progress page_start page_size = false →
      page_start ≠ s.progress.pagination_cursor →
      (handle_crank_distribution pol s page_start page_size now lockedAll
        claimed_fee).isOk = false) := by
  have hfirst : ∀ hf : is_first_page s.progress page_start = true,
      page_start = 0 ∧ s.progress.day_completed = true := by
    intro hf
    simp only [is_first_page, Bool.or_eq_true, Bool.and_eq_true, beq_iff_eq] at hf
    rcases hf with ⟨hps, hdc⟩ | ⟨hps, hc0⟩
    · exact ⟨hps, hdc⟩
    · refine ⟨hps, ?_⟩
      cases hdc : s.progress.day_completed
      · exact absurd hc0 (hreach hdc)
      · rfl
  constructor
  · intro hok
    cases hres : handle_crank_distribution pol s page_start page_size now lockedAll
        claimed_fee with
    | error e => rw [hres] at hok; exact Bool.noConfusion hok
    | ok v =>
      obtain ⟨s', ts⟩ := v
      rcases handle_crank_ok_inv pol s page_start page_size now lockedAll claimed_fee
          s' ts hres with ⟨hr, -, -⟩ | ⟨-, hseq, -⟩
      · exact .inr (.inl hr)
      · rcases hseq with hf | hc
        · exact .inl (hfirst hf)
        · exact .inr (.inr hc)
  · intro h1 h2 h3
    cases hres : handle_crank_distribution pol s page_start page_size now lockedAll
        claimed_fee with
    | error e => rfl
    | ok v =>
      obtain ⟨s', ts⟩ := v
      rcases handle_crank_ok_inv pol s page_start page_size now lockedAll claimed_fee
          s' ts hres with ⟨hr, -, -⟩ | ⟨-, hseq, -⟩
      · exact absurd hr (by simp [h2])
      · rcases hseq with hf | hc
        · exact absurd (hfirst hf) h1
        · exact absurd hc h3

/-- Claim C8 witness: from the reachable open-day state stateB1 (cursor 2),
a forward-skipping call with page_start 5 is rejected. -/
theorem claim8_witness :
    (handle_crank_distribution polB stateB1 5 2 86400 [400] 0).isOk = false :=
  (claim8_pagination_guard polB stateB1 5 2 86400 [400] 0 (by decide)).2
    (by decide) (by decide) (by decide)

/-- Claim C9: claim_position_fees_quote_only records the base (non
reference) treasury balance immediately before and after the claim CPI;
if it changed at all the call errors (and the aborted instruction commits
nothing), and on success the returned claimed amount is exactly the quote
(reference) treasury balance delta. -/
theorem claim9_quote_only_claim (tb bb ta ba : Nat) :
    (bb ≠ ba → claim_position_fees_quote_only tb bb ta ba =
      .error .BaseFeesDetected) ∧
    (∀ v, claim_position_fees_quote_only tb bb ta ba = .ok v →
      v = ta - tb ∧ bb = ba) := by
  constructor
  · intro hne
    unfold claim_position_fees_quote_only
    rw [if_pos hne]
  · intro v hv
    unfold claim_position_fees_quote_only at hv
    split at hv
    · exact Except.noConfusion hv
    rename_i hbe
    split at hv
    · exact Except.noConfusion hv
    injection hv with h2
    exact ⟨h2.symm, not_ne_iff.mp hbe⟩

/-- Claim C9 witness: a call that gains 60 - 50 base lamports aborts with
BaseFeesDetected, and a clean call claiming 300 - 100 quote lamports
returns exactly that delta. -/
theorem claim9_witness :
    claim_position_fees_quote_only 100 50 300 60 = .error .BaseFeesDetected ∧
    ((200 : Nat) = 300 - 100 ∧ (50 : Nat) = 50) :=
  ⟨(claim9_quote_only_claim 100 50 300 60).1 (by decide),
    (claim9_quote_only_claim 100 50 300 50).2 200 (by rfl)⟩

/-- Claim C10: handle_setup_policy succeeds exactly when
investor_fee_share_bps ≤ 10000, y0_total_allocation > 0,
min_payout_lamports ≥ 1000 (MIN_PAYOUT_THRESHOLD) and total_investors > 0;
every Policy it creates copies the validated parameters, so it satisfies
those bounds, and in particular its y0_total_allocation is nonzero, so the
y0 = 0 branch of calculate_eligible_investor_share is never taken for a
setup-created Policy: the eligible share is always the clamped
locked-fraction formula. -/
theorem claim10_setup_policy_validation (params : PolicyParams) :
    ((handle_setup_policy params).isOk = true ↔
      (params.investor_fee_share_bps ≤ 10000 ∧ 0 < params.y0_total_allocation ∧
        1000 ≤ params.min_payout_lamports ∧ 0 < params.total_investors)) ∧
    (∀ pol prog, handle_setup_policy params = .ok (pol, prog) →
      pol.investor_fee_share_bps = params.investor_fee_share_bps ∧
      pol.daily_cap_lamports = params.daily_cap_lamports ∧
      pol.min_payout_lamports = params.min_payout_lamports ∧
      pol.y0_total_allocation = params.y0_total_allocation ∧
      pol.total_investors = params.total_investors ∧
      pol.investor_fee_share_bps ≤ 10000 ∧ 0 < pol.y0_total_allocation ∧
      1000 ≤ pol.min_payout_lamports ∧ 0 < pol.total_investors ∧
      prog.day_completed = true ∧
      (∀ locked_total, calculate_eligible_investor_share pol locked_total =
        min pol.investor_fee_share_bps
          (min (locked_total * BASIS_POINTS_DIVISOR / pol.y0_total_allocation)
            BASIS_POINTS_DIVISOR))) := by
  have hbody : ∀ pol prog, handle_setup_policy params = .ok (pol, prog) →
      params.investor_fee_share_bps ≤ 10000 ∧ 0 < params.y0_total_allocation ∧
        1000 ≤ params.min_payout_lamports ∧ 0 < params.total_investors ∧
        pol = ⟨params.investor_fee_share_bps, params.daily_cap_lamports,
          params.min_payout_lamports, params.y0_total_allocation,
          params.total_investors⟩ ∧
        prog = ⟨0, 0, 0, 0, true, 0, 0, 0, 0, 0, 0, 0⟩ := by
    intro pol prog h
    unfold handle_setup_policy at h
    split at h
    · exact Except.noConfusion h
    rename_i c1
    split at h
    · exact Except.noConfusion h
    rename_i c2
    split at h
    · exact Except.noConfusion h
    rename_i c3
    split at h
    · exact Except.noConfusion h
    rename_i c4
    injection h with h2
    simp only [Prod.mk.injEq] at h2
    exact ⟨not_not.mp c1, not_not.mp c2, not_not.mp c3, not_not.mp c4,
      h2.1.symm, h2.2.symm⟩
  constructor
  · constructor
    · intro hok
      cases hres : handle_setup_policy params with
      | error e => rw [hres] at hok; exact Bool.noConfusion hok
      | ok v =>
        obtain ⟨pol, prog⟩ := v
        obtain ⟨c1, c2, c3, c4, -, -⟩ := hbody pol prog hres
        exact ⟨c1, c2, c3, c4⟩
    · intro ⟨c1, c2, c3, c4⟩
      unfold handle_setup_policy
      rw [if_neg (not_not_intro
          (show params.investor_fee_share_bps ≤ BASIS_POINTS_DIVISOR from c1)),
        if_neg (not_not_intro c2),
        if_neg (not_not_intro
          (show MIN_PAYOUT_THRESHOLD ≤ params.min_payout_lamports from c3)),
        if_neg (not_not_intro c4)]
      rfl
  · intro pol prog h
    obtain ⟨c1, c2, c3, c4, hpol, hprog⟩ := hbody pol prog h
    subst hpol
    subst hprog
    refine ⟨rfl, rfl, rfl, rfl, rfl, c1, c2, c3, c4, rfl, ?_⟩
    intro locked_total
    unfold calculate_eligible_investor_share
    rw [if_neg (by simp only []; omega)]

/-- Claim C10 witness: a parameter set meeting all four bounds sets up
successfully and yields a policy with a nonzero y0 denominator. -/
theorem claim10_witness :
    ((handle_setup_policy ⟨3000, none, 1000, 1000000, 5⟩).isOk = true) ∧
    ((3000 : Nat) ≤ 10000 ∧ (0 : Nat) < 1000000 ∧ (1000 : Nat) ≤ 1000 ∧
      (0 : Nat) < 5) :=
  ⟨(claim10_setup_policy_validation ⟨3000, none, 1000, 1000000, 5⟩).1.mpr
      ⟨by decide, by decide, by decide, by decide⟩,
    by decide, by decide, by decide, by decide⟩

/-- Claim C1 (code bug): conservation fails.  From setup, cycle 1 claims
500 that is all below the payout threshold, so 500 is persisted as
carry-over into cycle 2 (stateA1, reachable by the first call shown).
Cycle 2 claims 1500, so its pool current_day_total_claimed is 1500 + 500 =
2000; but the handler uses the freshly claimed 1500 (not the stored total)
as claimed_quote on the first page, pays the sole investor 1500, computes
a creator remainder of 1500 - 1500 - 0 = 0 and persists 0 carry-over: the
completed cycle shows claimed 2000 against investor 1500 + creator 0 +
carry-over 0 = 1500, losing the rolled dust and contradicting
claimed = investor_distributed + creator_distributed + carry_over. -/
theorem claim1_conservation_code_bug :
    handle_crank_distribution polA state0 0 1 86400 [1000] 500 =
      .ok (stateA1, []) ∧
    handle_crank_distribution polA stateA1 0 1 172800 [1000] 1500 =
      .ok (stateA2, [Transfer.payout 0 1500]) ∧
    stateA2.progress.current_day_total_claimed = 2000 ∧
    investorTransferTotal [Transfer.payout 0 1500] = 1500 ∧
    creatorTransferTotal [Transfer.payout 0 1500] = 0 ∧
    stateA2.progress.persistent_carry_over = 0 ∧
    investorTransferTotal [Transfer.payout 0 1500] +
        creatorTransferTotal [Transfer.payout 0 1500] +
        stateA2.progress.persistent_carry_over ≠
      stateA2.progress.current_day_total_claimed :=
  ⟨rfl, rfl, rfl, rfl, rfl, rfl, by decide⟩

/-- Claim C5 (code bug): on the first page of a cycle the investor pool is
computed from the freshly claimed amount alone, not from
current_day_total_claimed = claimed + persistent carry-over.  In the same
reachable cycle-2 run as claim C1, current_day_total_claimed is 2000 and
eligible_bps is 10000, so the spec formula gives a pool of 2000 and an
individual payout of 2000 for the fully locked sole investor — but the
code transfers 1500. -/
theorem claim5_first_page_pool_code_bug :
    handle_crank_distribution polA stateA1 0 1 172800 [1000] 1500 =
      .ok (stateA2, [Transfer.payout 0 1500]) ∧
    stateA2.progress.current_day_total_claimed = 2000 ∧
    stateA2.progress.current_day_total_locked_all = 1000 ∧
    calculate_eligible_investor_share polA 1000 = 10000 ∧
    spec_total_investor_pool 2000 10000 = 2000 ∧
    calculate_individual_payout (spec_total_investor_pool 2000 10000) 1000 1000 =
      .ok 2000 ∧
    Transfer.payout 0 1500 ≠ Transfer.payout 0 2000 :=
  ⟨rfl, rfl, rfl, rfl, rfl, rfl, by decide⟩

/-- The transfers in a call that pay a given investor index (either loop). -/
def transfersToInvestor (g : Nat) (ts : List Transfer) : List Transfer :=
  ts.filter fun t =>
    match t with
    | .payout x _ => x == g
    | .dust x _ => x == g
    | .creator _ => false

/-- Claim C2 counterexample: two successful transfers to the same investor
in one cycle.  From setup (polB, three investors locked 300/300/400,
claim 3000), page 1 pays nothing (two 900 payouts fold into 1800 of
carry-over dust, reaching stateB1), and page 2 — a single accepted call of
the same open cycle — sends investor 2 both a regular payout of 1200 and a
carry-over redistribution transfer of 720, because the redistribution loop
performs transfers without consulting the paid-investor bitmap. -/
theorem claim2_counterexample :
    handle_crank_distribution polB state0 0 2 86400 [300, 300, 400] 3000 =
      .ok (stateB1, []) ∧
    handle_crank_distribution polB stateB1 2 2 86400 [400] 0 =
      .ok (stateB2, [Transfer.payout 2 1200, Transfer.dust 2 720]) ∧
    (transfersToInvestor 2
      [Transfer.payout 2 1200, Transfer.dust 2 720]).length = 2 :=
  ⟨rfl, rfl, rfl⟩

/-- Claim C3 counterexample: the daily cap is exceeded.  From setup (polC,
cap 1000, two investors locked 500/500, claim 5000), page 1 clamps
investor 0's payout to the full cap (stateC1, current_day_distributed =
1000 = cap, 1500 carried as dust); the accepted page 2 then executes a
carry-over redistribution transfer of 750 with no cap check, leaving
current_day_distributed = 1750 > 1000 after the page. -/
theorem claim3_counterexample :
    polC.daily_cap_lamports = some 1000 ∧
    handle_crank_distribution polC state0 0 1 86400 [500, 500] 5000 =
      .ok (stateC1, [Transfer.payout 0 1000]) ∧
    stateC1.progress.current_day_distributed = 1000 ∧
    handle_crank_distribution polC stateC1 1 1 86400 [500] 0 =
      .ok (stateC2, [Transfer.dust 1 750]) ∧
    1000 < stateC2.progress.current_day_distributed :=
  ⟨rfl, rfl, rfl, rfl, by decide⟩

/-- Claim C4 counterexample: a transfer below min_payout_lamports is
executed.  In the same reachable polB run as claim C2, page 2 transfers
720 lamports to investor 2 through the carry-over redistribution loop,
and 720 < polB.min_payout_lamports = 1000: the dust floor only guards the
regular payout path. -/
theorem claim4_counterexample :
    handle_crank_distribution polB state0 0 2 86400 [300, 300, 400] 3000 =
      .ok (stateB1, []) ∧
    handle_crank_distribution polB stateB1 2 2 86400 [400] 0 =
      .ok (stateB2, [Transfer.payout 2 1200, Transfer.dust 2 720]) ∧
    Transfer.dust 2 720 ∈ [Transfer.payout 2 1200, Transfer.dust 2 720] ∧
    720 < polB.min_payout_lamports :=
  ⟨rfl, rfl, by decide, by decide⟩

/-- Claim C6 counterexample: the carry-over redistribution is not routed
through the regular transfer/dust path and is not pro-rated by the
page-local locked sum.  In the reachable polC run of claim C3, page 2
enters with carry-over 1500 ≥ threshold 1000; the page's locked sum is 500
and the spec's page-local pro-rata share for its sole investor is
1500 * 500 / 500 = 1500, routed through threshold and cap (cap headroom is
0, so nothing would be transferred).  The code instead transfers
1500 * 500 / 1000 = 750 (global-total scaling) directly: below the
threshold, past the exhausted cap, and without marking the bitmap. -/
theorem claim6_counterexample :
    stateC1.progress.current_day_carry_over = 1500 ∧
    1000 ≤ stateC1.progress.current_day_carry_over ∧
    handle_crank_distribution polC stateC1 1 1 86400 [500] 0 =
      .ok (stateC2, [Transfer.dust 1 750]) ∧
    spec_carry_share 1500 500 500 = 1500 ∧
    (750 : Nat) ≠ 1500 ∧
    750 < polC.min_payout_lamports ∧
    stateC1.progress.current_day_distributed = 1000 ∧
    polC.daily_cap_lamports = some 1000 ∧
    1000 < stateC2.progress.current_day_distributed :=
  ⟨rfl, by decide, rfl, rfl, by decide, by decide, rfl, rfl, by decide⟩

/-! ### Decomposition helpers for transfer lists -/

/-- payoutTargets distributes over append. -/
theorem payoutTargets_append (a b : List Transfer) :
    payoutTargets (a ++ b) = payoutTargets a ++ payoutTargets b :=
  List.filterMap_append a b _

/-- dustTransfers distributes over append. -/
theorem dustTransfers_append (a b : List Transfer) :
    dustTransfers (a ++ b) = dustTransfers a ++ dustTransfers b :=
  List.filter_append a b

/-- A payout transfer in a list contributes its target index. -/
theorem mem_payoutTargets_of_mem (g a : Nat) (l : List Transfer)
    (h : Transfer.payout g a ∈ l) : g ∈ payoutTargets l := by
  unfold payoutTargets
  exact List.mem_filterMap.mpr ⟨_, h, rfl⟩

/-- crankBody on a continuing (not new-day) page is crankBody2 on the
whole supplied page with the stored day pool. -/
theorem crankBody_ok_split_not_new (pol : Policy) (s : ChainState) (ps sz : Nat)
    (now : Int) (la : List Nat) (cf : Nat) (s' : ChainState) (ts : List Transfer)
    (h : crankBody pol s ps sz now la cf false = .ok (s', ts)) :
    crankBody2 pol s ps sz s.progress.current_day_total_claimed la.length la =
      .ok (s', ts) := by
  obtain ⟨s1, cq, hnd, hcb2⟩ := crankBody_ok_split pol s ps sz now la cf false s' ts h
  rw [newDayUpdate_not_new] at hnd
  injection hnd with h2
  simp only [Prod.mk.injEq] at h2
  obtain ⟨hs1, hcq⟩ := h2
  subst hs1
  subst hcq
  simpa [List.take_length] using hcb2

/-- Claim C2 (amended): the paid-investor bitmap makes the regular
pro-rata payout path pay each investor at most once per cycle — in any
accepted call the regular payout transfers target pairwise distinct
investor indices, none of which was already marked paid, and while a cycle
is open any non-retry page containing an already-marked investor is
rejected whole (no state change, no transfer) — but the carry-over
redistribution loop is not bitmap-guarded, so an investor can additionally
receive a dust redistribution transfer in the same cycle. -/
theorem claim2_no_double_payment_amended (pol : Policy) (s : ChainState)
    (ps sz : Nat) (now : Int) (la : List Nat) (cf : Nat) :
    (∀ s' ts, handle_crank_distribution pol s ps sz now la cf = .ok (s', ts) →
      (payoutTargets ts).Nodup) ∧
    (s.progress.day_completed = false →
      ∀ s' ts, handle_crank_distribution pol s ps sz now la cf = .ok (s', ts) →
      ∀ x ∈ payoutTargets ts,
        is_investor_paid s.progress.paid_investor_bitmap x = false) ∧
    (s.progress.day_completed = false →
      is_retry_previous_page s.progress ps sz = false →
      ∀ i, i < la.length →
      is_investor_paid s.progress.paid_investor_bitmap (ps + i) = true →
      (handle_crank_distribution pol s ps sz now la cf).isOk = false) := by
  refine ⟨?_, ?_, ?_⟩
  · intro s' ts h
    rcases handle_crank_ok_inv pol s ps sz now la cf s' ts h with
      ⟨-, -, rfl⟩ | ⟨-, -, hcb, -⟩
    · simp [payoutTargets]
    · obtain ⟨s1, cq, hnd, hcb2⟩ := crankBody_ok_split pol s ps sz now la cf _ s' ts hcb
      obtain ⟨fee, pl, cd, lo, ts2, ts3, hfee, hcp, hlo, hts, hts2p, hts2z, hts3, hdist,
        hend⟩ := crankBody2_ok_inv pol s1 ps sz cq _ _ s' ts hcb2
      have hts2nil : payoutTargets ts2 = [] := by
        by_cases hcd : 0 < cd
        · rw [hts2p hcd]
          exact dustLoop_payoutTargets cd pl _ ps lo.distributed lo.page_distributed
        · rw [hts2z (by omega)]
          rfl
      have hts3nil : payoutTargets ts3 = [] := by
        rcases hts3 with rfl | ⟨r, rfl⟩ <;> simp [payoutTargets]
      rw [hts, payoutTargets_append, payoutTargets_append, hts2nil, hts3nil,
        List.append_nil, List.append_nil]
      exact (payoutLoop_inv pol fee _ _ ps _ _ 0 0 lo hlo).2.2.1
  · intro hday s' ts h x hx
    rcases handle_crank_ok_inv pol s ps sz now la cf s' ts h with
      ⟨-, -, rfl⟩ | ⟨-, -, hcb, -⟩
    · simp [payoutTargets] at hx
    · rw [hday, Bool.and_false] at hcb
      have hcb2 := crankBody_ok_split_not_new pol s ps sz now la cf s' ts hcb
      obtain ⟨fee, pl, cd, lo, ts2, ts3, hfee, hcp, hlo, hts, hts2p, hts2z, hts3, hdist,
        hend⟩ := crankBody2_ok_inv pol s ps sz _ _ _ s' ts hcb2
      have hts2nil : payoutTargets ts2 = [] := by
        by_cases hcd : 0 < cd
        · rw [hts2p hcd]
          exact dustLoop_payoutTargets cd pl _ ps lo.distributed lo.page_distributed
        · rw [hts2z (by omega)]
          rfl
      have hts3nil : payoutTargets ts3 = [] := by
        rcases hts3 with rfl | ⟨r, rfl⟩ <;> simp [payoutTargets]
      rw [hts, payoutTargets_append, payoutTargets_append, hts2nil, hts3nil,
        List.append_nil, List.append_nil] at hx
      exact (payoutLoop_inv pol fee _ _ ps _ _ 0 0 lo hlo).2.2.2.1 x hx
  · intro hday hretry i hi hpaid
    cases hres : handle_crank_distribution pol s ps sz now la cf with
    | error e => rfl
    | ok v =>
      obtain ⟨s', ts⟩ := v
      rcases handle_crank_ok_inv pol s ps sz now la cf s' ts hres with
        ⟨hr, -, -⟩ | ⟨-, -, hcb, -⟩
      · rw [hr] at hretry
        exact Bool.noConfusion hretry
      · rw [hday, Bool.and_false] at hcb
        have hcb2 := crankBody_ok_split_not_new pol s ps sz now la cf s' ts hcb
        obtain ⟨fee, pl, cd, lo, ts2, ts3, hfee, hcp, hlo, -, -, -, -, -, -⟩ :=
          crankBody2_ok_inv pol s ps sz _ _ _ s' ts hcb2
        have := (payoutLoop_inv pol fee _ _ ps _ _ 0 0 lo hlo).1 i hi
        rw [this] at hpaid
        exact Bool.noConfusion hpaid

/-- polB's open-day page-1 state with investor 2 already marked paid, used
to witness the whole-call rejection of a page containing a paid investor. -/
def stateB1m : ChainState := ⟨⟨86400, 0, 1800, 2, false, 3000, 0, 0, 0, 1000, 0, 4⟩, 3000⟩

/-- Claim C2 amended witness: in the accepted polB page-2 call the regular
payout targets are distinct and were unmarked, and the same call against a
state where investor 2 is already marked is rejected whole. -/
theorem claim2_amended_witness :
    (payoutTargets [Transfer.payout 2 1200, Transfer.dust 2 720]).Nodup ∧
    is_investor_paid stateB1.progress.paid_investor_bitmap 2 = false ∧
    (handle_crank_distribution polB stateB1m 2 2 86400 [400] 0).isOk = false :=
  ⟨(claim2_no_double_payment_amended polB stateB1 2 2 86400 [400] 0).1
      stateB2 [Transfer.payout 2 1200, Transfer.dust 2 720] (by rfl),
    (claim2_no_double_payment_amended polB stateB1 2 2 86400 [400] 0).2.1
      (by rfl) stateB2 [Transfer.payout 2 1200, Transfer.dust 2 720] (by rfl)
      2 (by decide),
    (claim2_no_double_payment_amended polB stateB1m 2 2 86400 [400] 0).2.2
      (by rfl) (by rfl) 0 (by decide) (by decide)⟩

/-- Claim C3 (amended): with a configured daily cap, after any accepted
page on which no carry-over redistribution takes place (the carry-over
entering the page is below the payout threshold), current_day_distributed
stays at or below the cap — the regular payout path is cap-clamped
incrementally; only carry-over redistribution transfers (which bypass
check_daily_cap) can push it past the cap. -/
theorem claim3_cap_amended (pol : Policy) (s : ChainState) (ps sz : Nat)
    (now : Int) (la : List Nat) (cf : Nat) (c : Nat)
    (hcap : pol.daily_cap_lamports = some c) (hcU : c < U64_SIZE)
    (hd : s.progress.current_day_distributed ≤ c)
    (hco : s.progress.current_day_carry_over < pol.min_payout_lamports) :
    ∀ s' ts, handle_crank_distribution pol s ps sz now la cf = .ok (s', ts) →
      s'.progress.current_day_distributed ≤ c := by
  intro s' ts h
  rcases handle_crank_ok_inv pol s ps sz now la cf s' ts h with
    ⟨-, rfl, -⟩ | ⟨-, -, hcb, -⟩
  · exact hd
  · obtain ⟨s1, cq, hnd, hcb2⟩ := crankBody_ok_split pol s ps sz now la cf _ s' ts hcb
    obtain ⟨fee, pl, cd, lo, ts2, ts3, hfee, hcp, hlo, hts, hts2p, hts2z, hts3, hdist,
      hend⟩ := crankBody2_ok_inv pol s1 ps sz cq _ _ s' ts hcb2
    have hs1 : s1.progress.current_day_distributed ≤ c ∧
        (s1.progress.current_day_carry_over = 0 ∨
          s1.progress.current_day_carry_over < pol.min_payout_lamports) := by
      rcases newDayUpdate_inv s now cf la _ s1 cq hnd with ⟨-, rfl⟩ | ⟨-, hd0, hc0, -⟩
      · exact ⟨hd, .inr hco⟩
      · rw [hd0, hc0]
        exact ⟨Nat.zero_le c, .inl rfl⟩
    have hcd0 : cd = 0 := carryPre_zero pol.min_payout_lamports
      s1.progress.current_day_carry_over s1.progress.current_day_total_locked_all
      _ pl cd hcp hs1.2
    rw [hdist, hcd0]
    simp only [Nat.lt_irrefl, if_false, reduceIte]
    exact (payoutLoop_inv pol fee _ _ ps _ _ 0 0 lo hlo).2.2.2.2.2.2
      c hcap hcU hs1.1

/-- Claim C3 amended witness: the polC page-1 call (carry-over 0 below the
threshold) respects the cap: current_day_distributed ends at 1000 ≤ 1000. -/
theorem claim3_amended_witness :
    stateC1.progress.current_day_distributed ≤ 1000 :=
  claim3_cap_amended polC state0 0 1 86400 [500, 500] 5000 1000
    (by rfl) (by decide) (by decide) (by decide)
    stateC1 [Transfer.payout 0 1000] (by rfl)

/-- Claim C4 (amended): with no daily cap configured, no transfer produced
by the per-investor pro-rata payout path is below min_payout_lamports —
sub-threshold amounts are folded into dust instead of being transferred.
The exceptions the counterexample forces: a cap-clamped payout can fall
below the threshold, and carry-over redistribution transfers bypass
apply_dust_threshold entirely. -/
theorem claim4_dust_floor_amended (pol : Policy) (s : ChainState) (ps sz : Nat)
    (now : Int) (la : List Nat) (cf : Nat)
    (hcap : pol.daily_cap_lamports = none) :
    ∀ s' ts, handle_crank_distribution pol s ps sz now la cf = .ok (s', ts) →
      ∀ g a, Transfer.payout g a ∈ ts → pol.min_payout_lamports ≤ a := by
  intro s' ts h g a hmem
  rcases handle_crank_ok_inv pol s ps sz now la cf s' ts h with
    ⟨-, -, rfl⟩ | ⟨-, -, hcb, -⟩
  · simp at hmem
  · obtain ⟨s1, cq, hnd, hcb2⟩ := crankBody_ok_split pol s ps sz now la cf _ s' ts hcb
    obtain ⟨fee, pl, cd, lo, ts2, ts3, hfee, hcp, hlo, hts, hts2p, hts2z, hts3, hdist,
      hend⟩ := crankBody2_ok_inv pol s1 ps sz cq _ _ s' ts hcb2
    rw [hts] at hmem
    rcases List.mem_append.mp hmem with hmem1 | hmem3
    · rcases List.mem_append.mp hmem1 with hmem1 | hmem2
      · exact (payoutLoop_inv pol fee _ _ ps _ _ 0 0 lo hlo).2.2.2.2.1 g a hmem1 hcap
      · exfalso
        have hg := mem_payoutTargets_of_mem g a ts2 hmem2
        have hts2nil : payoutTargets ts2 = [] := by
          by_cases hcd : 0 < cd
          · rw [hts2p hcd]
            exact dustLoop_payoutTargets cd pl _ ps lo.distributed lo.page_distributed
          · rw [hts2z (by omega)]
            rfl
        rw [hts2nil] at hg
        simp at hg
    · exfalso
      rcases hts3 with rfl | ⟨r, rfl⟩
      · simp at hmem3
      · rcases List.mem_singleton.mp hmem3 with h
        exact Transfer.noConfusion h

/-- Claim C4 amended witness: in the uncapped polB page-2 call the regular
payout of 1200 to investor 2 meets the 1000 threshold. -/
theorem claim4_amended_witness :
    Transfer.payout 2 1200 ∈ [Transfer.payout 2 1200, Transfer.dust 2 720] ∧
    (1000 : Nat) ≤ 1200 :=
  ⟨by decide,
    claim4_dust_floor_amended polB stateB1 2 2 86400 [400] 0 (by rfl)
      stateB2 [Transfer.payout 2 1200, Transfer.dust 2 720] (by rfl)
      2 1200 (by decide)⟩

/-- Claim C6 (amended): on a continuing page of an open cycle whose
incoming carry-over meets the payout threshold (and whose oracle data is
consistent: the page's locked sum is at most the stored global total,
which is a u64 value), the code first scales the carry-over by the page's
share of the *global* locked total — page_share = floor(carry_over *
page_locked / total_locked_all) — and then splits page_share across the
page pro-rata by the page-local locked sum, transferring every positive
floor share directly, with no threshold, cap or bitmap check: the
dust-tagged transfers of the call are exactly dustShares page_share
page_locked page_start lockedAll.  (The carry-over is read once and
zeroed before the page's new dust is accumulated; the unsplit remainder
carry_over - page_share folds back into the page's outgoing dust.) -/
theorem claim6_carry_redistribution_amended (pol : Policy) (s : ChainState)
    (ps sz : Nat) (now : Int) (la : List Nat) (cf : Nat)
    (hday : s.progress.day_completed = false)
    (hretry : is_retry_previous_page s.progress ps sz = false)
    (hmin : pol.min_payout_lamports ≤ s.progress.current_day_carry_over)
    (hTL : 0 < s.progress.current_day_total_locked_all)
    (hTLU : s.progress.current_day_total_locked_all < U64_SIZE)
    (hcoU : s.progress.current_day_carry_over < U64_SIZE)
    (hsum : la.sum ≤ s.progress.current_day_total_locked_all) :
    ∀ s' ts, handle_crank_distribution pol s ps sz now la cf = .ok (s', ts) →
      dustTransfers ts =
        dustShares
          (s.progress.current_day_carry_over * la.sum /
            s.progress.current_day_total_locked_all)
          la.sum ps la := by
  intro s' ts h
  rcases handle_crank_ok_inv pol s ps sz now la cf s' ts h with
    ⟨hr, -, -⟩ | ⟨-, -, hcb, -⟩
  · rw [hr] at hretry
    exact Bool.noConfusion hretry
  · rw [hday, Bool.and_false] at hcb
    have hcb2 := crankBody_ok_split_not_new pol s ps sz now la cf s' ts hcb
    obtain ⟨fee, pl, cd, lo, ts2, ts3, hfee, hcp, hlo, hts, hts2p, hts2z, hts3, hdist,
      hend⟩ := crankBody2_ok_inv pol s ps sz _ _ _ s' ts hcb2
    have hsumU : la.sum < U64_SIZE := Nat.lt_of_le_of_lt hsum hTLU
    obtain ⟨hpl, hcd⟩ := carryPre_values pol.min_payout_lamports
      s.progress.current_day_carry_over s.progress.current_day_total_locked_all
      la pl cd hmin hsumU hTL hcp
    have hshare_le : s.progress.current_day_carry_over * la.sum /
        s.progress.current_day_total_locked_all ≤
          s.progress.current_day_carry_over := by
      calc s.progress.current_day_carry_over * la.sum /
            s.progress.current_day_total_locked_all
          ≤ s.progress.current_day_carry_over *
              s.progress.current_day_total_locked_all /
              s.progress.current_day_total_locked_all :=
            Nat.div_le_div_right (Nat.mul_le_mul_left _ hsum)
        _ = s.progress.current_day_carry_over := Nat.mul_div_cancel _ hTL
    have hcd2 : cd = s.progress.current_day_carry_over * la.sum /
        s.progress.current_day_total_locked_all := by
      rw [hcd]
      exact Nat.mod_eq_of_lt (Nat.lt_of_le_of_lt hshare_le hcoU)
    have hdtLo : dustTransfers lo.transfers = [] :=
      (payoutLoop_inv pol fee _ _ ps _ _ 0 0 lo hlo).2.2.2.2.2.1
    have hdt3 : dustTransfers ts3 = [] := by
      rcases hts3 with rfl | ⟨r, rfl⟩ <;> simp [dustTransfers]
    rw [hts, dustTransfers_append, dustTransfers_append, hdtLo, hdt3,
      List.nil_append, List.append_nil]
    by_cases hcdpos : 0 < cd
    · have hplpos : 0 < pl := by
        rcases Nat.eq_zero_or_pos pl with hz | hp
        · rw [hz] at hpl
          rw [hcd2, ← hpl] at hcdpos
          simp at hcdpos
        · exact hp
      rw [hts2p hcdpos, hpl] at *
      rw [dustLoop_eq_dustShares cd la.sum (by omega) la ps lo.distributed
        lo.page_distributed ?fit]
      · rw [hcd2]
        exact dustTransfers_dustShares _ _ la ps
      case fit =>
        intro l hl
        have hlle : l ≤ la.sum := List.le_sum_of_mem hl
        calc cd * l / la.sum ≤ cd * la.sum / la.sum :=
              Nat.div_le_div_right (Nat.mul_le_mul_left _ hlle)
          _ = cd := Nat.mul_div_cancel _ (by omega)
          _ < U64_SIZE := by
              rw [hcd2]
              exact Nat.lt_of_le_of_lt hshare_le hcoU
    · have hcd0 : cd = 0 := by omega
      rw [hts2z hcd0, ← hcd2, hcd0]
      rw [dustShares_zero la.sum la ps]
      rfl

/-- Claim C6 amended witness: the polC page-2 call redistributes the 1500
carry-over scaled by the page's share of the global total — its dust
transfers are exactly dustShares (1500 * 500 / 1000) 500 1 [500] =
[Transfer.dust 1 750]. -/
theorem claim6_amended_witness :
    dustTransfers [Transfer.dust 1 750] =
      dustShares (1500 * 500 / 1000) 500 1 [500] :=
  claim6_carry_redistribution_amended polC stateC1 1 1 86400 [500] 0
    (by rfl) (by rfl) (by decide) (by decide) (by decide) (by decide) (by decide)
    stateC2 [Transfer.dust 1 750] (by rfl)
